import Mathlib

/-!
Verification of the execution-layer core of the `block-producer` crate:
state store transactions, transaction pre-validation, block execution
orchestration, RLP encodings and Merkle Patricia Trie root calculators.

Bytes are modelled as `Nat` (each `< 256`), byte strings as `List Nat`,
256-bit words and hashes as `Nat`, addresses as `Nat`.
-/

namespace BlockProducer

/-! ## RLP encoding (alloy-rlp semantics as used by the crate) -/

/-- Fuelled helper for `natBE` (structural recursion so the kernel can
evaluate it; `fuel = n` always suffices since `n / 256 < n` for `n > 0`). -/
def natBEAux : Nat → Nat → List Nat
  | 0, _ => []
  | fuel + 1, n => if n = 0 then [] else natBEAux fuel (n / 256) ++ [n % 256]

/-- Minimal big-endian byte representation of a natural number (empty for 0). -/
def natBE (n : Nat) : List Nat := natBEAux n n

/-- RLP encoding of a byte string. -/
def rlpBytes (bs : List Nat) : List Nat :=
  if bs.length = 1 ∧ bs.headD 0 < 0x80 then bs
  else if bs.length ≤ 55 then (0x80 + bs.length) :: bs
  else (0xb7 + (natBE bs.length).length) :: (natBE bs.length ++ bs)

/-- RLP encoding of an unsigned integer (minimal big-endian byte string). -/
def rlpNat (n : Nat) : List Nat := rlpBytes (natBE n)

/-- RLP list header for a given payload length
(`alloy_rlp::Header { list: true, payload_length }`). -/
def rlpListHeader (payloadLen : Nat) : List Nat :=
  if payloadLen ≤ 55 then [0xc0 + payloadLen]
  else (0xf7 + (natBE payloadLen).length) :: natBE payloadLen

/-- RLP encoding of a list whose items are already RLP-encoded fragments. -/
def rlpList (items : List (List Nat)) : List Nat :=
  rlpListHeader items.flatten.length ++ items.flatten

/-- `alloy_rlp::length_of_length`: size in bytes of the length prefix. -/
def lengthOfLength (payloadLen : Nat) : Nat :=
  if payloadLen ≤ 55 then 1 else 1 + (natBE payloadLen).length

/-! ## Keccak-256 (the hash used throughout the crate via `alloy_primitives`) -/

/-- Rotate a 64-bit lane left by `n` bits. -/
def rotl64 (x n : Nat) : Nat :=
  (((x <<< n) % (2 ^ 64)) ||| (x >>> (64 - n)))

/-- θ step column parity. -/
def thetaC (s : List Nat) (x : Nat) : Nat :=
  (s.getD x 0) ^^^ (s.getD (x + 5) 0) ^^^ (s.getD (x + 10) 0) ^^^
    (s.getD (x + 15) 0) ^^^ (s.getD (x + 20) 0)

/-- θ step of Keccak-f[1600] on 25 lanes (index `x + 5*y`). -/
def theta (s : List Nat) : List Nat :=
  let c := (List.range 5).map (thetaC s)
  let d := (List.range 5).map fun x =>
    (c.getD ((x + 4) % 5) 0) ^^^ rotl64 (c.getD ((x + 1) % 5) 0) 1
  (List.range 25).map fun i => (s.getD i 0) ^^^ (d.getD (i % 5) 0)

/-- The lane coordinates visited by the ρ-offset generation walk: step `t`
sits at `(x, y)` with the walk starting at `(1, 0)` and moving by
`(x, y) ↦ (y, (2x + 3y) mod 5)`. -/
def rhoWalk : Nat → Nat × Nat
  | 0 => (1, 0)
  | t + 1 => ((rhoWalk t).2, (2 * (rhoWalk t).1 + 3 * (rhoWalk t).2) % 5)

/-- ρ rotation offset of the lane at index `i = x + 5*y`: the walk step `t`
landing on that lane contributes `(t+1)(t+2)/2 mod 64`; lane 0 rotates by
0. -/
def rhoOffsets : List Nat :=
  (List.range 25).map fun i =>
    match (List.range 24).find?
        (fun t => (rhoWalk t).1 + 5 * (rhoWalk t).2 = i) with
    | some t => (t + 1) * (t + 2) / 2 % 64
    | none => 0

/-- Combined ρ and π steps: destination `(X, Y)` takes lane
`((X + 3Y) mod 5, X)` rotated by its ρ offset. -/
def rhoPi (s : List Nat) : List Nat :=
  (List.range 25).map fun j =>
    let X := j % 5
    let Y := j / 5
    let src := (X + 3 * Y) % 5 + 5 * X
    rotl64 (s.getD src 0) (rhoOffsets.getD src 0)

/-- χ step. -/
def chi (s : List Nat) : List Nat :=
  (List.range 25).map fun j =>
    let X := j % 5
    let row := 5 * (j / 5)
    (s.getD j 0) ^^^
      (((s.getD (row + (X + 1) % 5) 0) ^^^ (2 ^ 64 - 1)) &&&
        (s.getD (row + (X + 2) % 5) 0))

/-- Keccak-f round constants (ι step), written in decimal. -/
def roundConstants : List Nat :=
  [1, 32898, 9223372036854808714, 9223372039002292224, 32907,
   2147483649, 9223372039002292353, 9223372036854808585, 138, 136,
   2147516425, 2147483658, 2147516555, 9223372036854775947,
   9223372036854808713, 9223372036854808579, 9223372036854808578,
   9223372036854775936, 32778, 9223372039002259466,
   9223372039002292353, 9223372036854808704, 2147483649,
   9223372039002292232]

/-- One Keccak-f round: θ, ρ, π, χ, ι. -/
def keccakRound (s : List Nat) (rc : Nat) : List Nat :=
  match chi (rhoPi (theta s)) with
  | [] => []
  | a :: rest => (a ^^^ rc) :: rest

/-- The full Keccak-f[1600] permutation (24 rounds). -/
def keccakF (s : List Nat) : List Nat :=
  roundConstants.foldl keccakRound s

/-- Little-endian bytes to 64-bit lane. -/
def bytesToLane (bs : List Nat) : Nat :=
  bs.foldr (fun b acc => b + 256 * acc) 0

/-- 64-bit lane to 8 little-endian bytes. -/
def laneBytes (n : Nat) : List Nat :=
  (List.range 8).map fun i => (n >>> (8 * i)) % 256

/-- Keccak (pre-SHA3) multi-rate padding to 136-byte blocks. -/
def padKeccak (msg : List Nat) : List Nat :=
  let padLen := 136 - msg.length % 136
  msg ++ (if padLen = 1 then [0x81]
          else 0x01 :: (List.replicate (padLen - 2) 0 ++ [0x80]))

/-- Absorb one 136-byte block into the state. -/
def absorbBlock (st : List Nat) (block : List Nat) : List Nat :=
  let lanes := (List.range 17).map fun i => bytesToLane ((block.drop (8 * i)).take 8)
  keccakF ((List.range 25).map fun i => (st.getD i 0) ^^^ (lanes.getD i 0))

/-- Fuelled helper for `absorbAll` (one unit of fuel per 136-byte block). -/
def absorbAllAux : Nat → List Nat → List Nat → List Nat
  | 0, st, _ => st
  | fuel + 1, st, padded =>
    if padded.length = 0 then st
    else absorbAllAux fuel (absorbBlock st (padded.take 136)) (padded.drop 136)

/-- Absorb a padded message (length a multiple of 136). -/
def absorbAll (st : List Nat) (padded : List Nat) : List Nat :=
  absorbAllAux (padded.length / 136 + 1) st padded

/-- Keccak-256 digest as 32 bytes. -/
def keccak256Bytes (msg : List Nat) : List Nat :=
  let st := absorbAll (List.replicate 25 0) (padKeccak msg)
  ((List.range 4).map fun i => laneBytes (st.getD i 0)).flatten

/-- Big-endian bytes to natural number. -/
def bytesBE (bs : List Nat) : Nat :=
  bs.foldl (fun acc b => acc * 256 + b) 0

/-- Keccak-256 digest as a 256-bit number (B256 in the source). -/
def keccak256 (msg : List Nat) : Nat := bytesBE (keccak256Bytes msg)

/-- 32 big-endian bytes of a 256-bit number (`U256::to_be_bytes` /
`B256` raw bytes). -/
def natToBytes32 (n : Nat) : List Nat :=
  (List.range 32).map fun i => (n >>> (8 * (31 - i))) % 256

/-- 20 big-endian bytes of an address (`Address::as_slice`). -/
def addrBytes (a : Nat) : List Nat :=
  (List.range 20).map fun i => (a >>> (8 * (19 - i))) % 256

/-! ## Stable sort by key (`Vec::sort_by_key` over `B256` keys) -/

/-- Stable sort of key-value pairs by ascending key (insertion sort, the
model of `Vec::sort_by_key`). -/
def sortByKey {β : Type} (l : List (Nat × β)) : List (Nat × β) :=
  l.insertionSort fun a b => a.1 ≤ b.1

/-! ## Merkle Patricia Trie root (semantics of `alloy_trie::HashBuilder`
as driven by the crate: sorted 32-byte hashed keys, RLP leaf values) -/

/-- Split bytes into nibbles, high nibble first (`Nibbles::unpack`). -/
def bytesToNibbles (bs : List Nat) : List Nat :=
  bs.foldr (fun b acc => b / 16 :: b % 16 :: acc) []

/-- Pack pairs of nibbles back into bytes. -/
def nibblePairs : List Nat → List Nat
  | a :: b :: rest => (a * 16 + b) :: nibblePairs rest
  | _ => []

/-- Hex-prefix encoding of a nibble path (leaf flag 2, extension flag 0). -/
def hexPathEncode (nibbles : List Nat) (isLeaf : Bool) : List Nat :=
  let flag := if isLeaf then 2 else 0
  if nibbles.length % 2 = 1 then
    ((flag + 1) * 16 + nibbles.headD 0) :: nibblePairs nibbles.tail
  else
    (flag * 16) :: nibblePairs nibbles

/-- Longest shared head of two nibble paths. -/
def sharedStem2 : List Nat → List Nat → List Nat
  | a :: restA, b :: restB => if a = b then a :: sharedStem2 restA restB else []
  | _, _ => []

/-- Longest shared head of a family of nibble paths. -/
def sharedStem : List (List Nat) → List Nat
  | [] => []
  | p :: rest => rest.foldl sharedStem2 p

/-- Reference to a child node inside a parent node: inline the RLP structure
when shorter than 32 bytes, otherwise the RLP string of its Keccak hash. -/
def nodeRef (nodeRlp : List Nat) : List Nat :=
  if nodeRlp.length < 32 then nodeRlp else rlpBytes (keccak256Bytes nodeRlp)

/-- RLP structure of the trie node covering the given leaves (each a pair of
remaining nibble path and raw RLP-encoded value); fuelled on path depth. -/
def mptNode : Nat → List (List Nat × List Nat) → List Nat
  | 0, _ => []
  | _ + 1, [] => []
  | _ + 1, [(path, value)] =>
    rlpList [rlpBytes (hexPathEncode path true), rlpBytes value]
  | fuel + 1, leaves =>
    let stem := sharedStem (leaves.map Prod.fst)
    if stem.length > 0 then
      let sub := mptNode fuel (leaves.map fun pv => (pv.1.drop stem.length, pv.2))
      rlpList [rlpBytes (hexPathEncode stem false), nodeRef sub]
    else
      let children := (List.range 16).map fun n =>
        let sub := leaves.filterMap fun pv =>
          if pv.1.headD 16 = n then some (pv.1.tail, pv.2) else none
        if sub.isEmpty then [0x80] else nodeRef (mptNode fuel sub)
      let valueItem :=
        match leaves.find? (fun pv => pv.1.isEmpty) with
        | some pv => rlpBytes pv.2
        | none => [0x80]
      rlpList (children ++ [valueItem])

/-- Root of the trie over nibble-path/value leaves; the root node is always
hashed, and the empty trie hashes `RLP("")`. -/
def mptRoot (leaves : List (List Nat × List Nat)) : Nat :=
  match leaves with
  | [] => keccak256 (rlpBytes [])
  | _ => keccak256 (mptNode 66 leaves)

/-- Root over (32-byte hashed key, raw RLP value) leaves, as fed to the
`HashBuilder` by the crate after sorting. -/
def mptRootFromSorted (leaves : List (Nat × List Nat)) : Nat :=
  mptRoot (leaves.map fun kv => (bytesToNibbles (natToBytes32 kv.1), kv.2))

/-- `EMPTY_ROOT_HASH` / `EMPTY_STATE_ROOT` / `EMPTY_STORAGE_ROOT`: the byte
constant hard-coded in `utils/merkle.rs`, `trie/state_root.rs`,
`trie/storage_root.rs` and `schema/account.rs`. -/
def EMPTY_ROOT_HASH : Nat :=
  0x56e81f171bcc55a6ff8345e692c0f86e5b48e01b996cadc001622fb5e363b421

/-- `EMPTY_CODE_HASH` (`schema/account.rs`). -/
def EMPTY_CODE_HASH : Nat :=
  0xc5d2460186f7233c927e7db2dcc703c0e500b653ca82273b7bfad8045d85a470

/-! ## Schema: accounts and storage slots -/

/-- `schema::Account`: nonce, balance, storage root, code hash. -/
structure Account where
  nonce : Nat
  balance : Nat
  storage_root : Nat
  code_hash : Nat
deriving DecidableEq, Repr

/-- `schema::StorageSlot`. -/
structure StorageSlot where
  address : Nat
  key : Nat
  value : Nat
deriving DecidableEq, Repr

/-! ## Association-list maps (model of the redb tables and the
`HashMap`s inside `TransactionBuffer`) -/

/-- Lookup in an association list. -/
def alLookup {κ ν : Type} [DecidableEq κ] (l : List (κ × ν)) (k : κ) : Option ν :=
  match l with
  | [] => none
  | (k', v) :: rest => if k = k' then some v else alLookup rest k

/-- Insert-or-replace in an association list. -/
def alUpsert {κ ν : Type} [DecidableEq κ] (l : List (κ × ν)) (k : κ) (v : ν) :
    List (κ × ν) :=
  match l with
  | [] => [(k, v)]
  | (k', v') :: rest =>
    if k = k' then (k, v) :: rest else (k', v') :: alUpsert rest k v

/-- Remove a key from an association list. -/
def alRemove {κ ν : Type} [DecidableEq κ] (l : List (κ × ν)) (k : κ) :
    List (κ × ν) :=
  match l with
  | [] => []
  | (k', v) :: rest => if k = k' then rest else (k', v) :: alRemove rest k

/-! ## State store (`db::RedbStateDB`) -/

/-- `db::DbError` (the variants reachable in the model). -/
inductive DbError
  | Serialization (msg : String)
  | Transaction (msg : String)
  | Other (msg : String)
deriving DecidableEq, Repr

/-- `db::TransactionBuffer`: the in-memory write buffer of one open
transaction. -/
structure TransactionBuffer where
  accounts : List (Nat × Account)
  storage : List ((Nat × Nat) × Nat)
  codes : List (Nat × List Nat)
  block_hashes : List (Nat × Nat)
  deleted_accounts : List Nat
deriving DecidableEq, Repr

/-- `TransactionBuffer::new`. -/
def TransactionBuffer.new : TransactionBuffer := ⟨[], [], [], [], []⟩

/-- `RedbStateDB`: the four persistent state tables, the blocks table, the
optional transaction buffer, and the changed-accounts tracking list. -/
structure RedbStateDB where
  accounts : List (Nat × Account)
  storage : List ((Nat × Nat) × Nat)
  code : List (Nat × List Nat)
  block_hashes : List (Nat × Nat)
  blocks : List (Nat × List Nat)
  tx_buffer : Option TransactionBuffer
  changed_accounts : List Nat
deriving DecidableEq, Repr

/-- A freshly created database: all tables empty, no open transaction. -/
def RedbStateDB.new : RedbStateDB := ⟨[], [], [], [], [], none, []⟩

namespace RedbStateDB

/-- `track_changed_account`: append if not already present. -/
def track_changed_account (s : RedbStateDB) (address : Nat) : RedbStateDB :=
  if address ∈ s.changed_accounts then s
  else { s with changed_accounts := s.changed_accounts ++ [address] }

/-- `get_account`: buffer first (entries, then tombstones), then the table. -/
def get_account (s : RedbStateDB) (address : Nat) : Option Account :=
  match s.tx_buffer with
  | some buffer =>
    match alLookup buffer.accounts address with
    | some acc => some acc
    | none =>
      if address ∈ buffer.deleted_accounts then none
      else alLookup s.accounts address
  | none => alLookup s.accounts address

/-- `set_account`: track the change, then write to the buffer in buffered
mode or directly to the table otherwise. -/
def set_account (s : RedbStateDB) (address : Nat) (account : Account) :
    RedbStateDB :=
  let s := s.track_changed_account address
  match s.tx_buffer with
  | some buffer =>
    { s with tx_buffer := some { buffer with
        accounts := alUpsert buffer.accounts address account } }
  | none => { s with accounts := alUpsert s.accounts address account }

/-- `delete_account`: track the change; buffered mode drops any pending
entry and records a tombstone, direct mode removes the row. -/
def delete_account (s : RedbStateDB) (address : Nat) : RedbStateDB :=
  let s := s.track_changed_account address
  match s.tx_buffer with
  | some buffer =>
    { s with tx_buffer := some { buffer with
        accounts := alRemove buffer.accounts address,
        deleted_accounts := buffer.deleted_accounts ++ [address] } }
  | none => { s with accounts := alRemove s.accounts address }

/-- `get_storage`: buffer first, then the table; absent slots read zero. -/
def get_storage (s : RedbStateDB) (address key : Nat) : Nat :=
  match s.tx_buffer with
  | some buffer =>
    match alLookup buffer.storage (address, key) with
    | some v => v
    | none => (alLookup s.storage (address, key)).getD 0
  | none => (alLookup s.storage (address, key)).getD 0

/-- `set_storage`. -/
def set_storage (s : RedbStateDB) (address key value : Nat) : RedbStateDB :=
  let s := s.track_changed_account address
  match s.tx_buffer with
  | some buffer =>
    { s with tx_buffer := some { buffer with
        storage := alUpsert buffer.storage (address, key) value } }
  | none => { s with storage := alUpsert s.storage (address, key) value }

/-- `get_all_storage`: scan of the persistent `storage` table filtered by
address (the transaction buffer is not consulted). -/
def get_all_storage (s : RedbStateDB) (address : Nat) : List StorageSlot :=
  s.storage.filterMap fun kv =>
    if kv.1.1 = address then some ⟨address, kv.1.2, kv.2⟩ else none

/-- `set_code`. -/
def set_code (s : RedbStateDB) (code_hash : Nat) (codeBytes : List Nat) :
    RedbStateDB :=
  match s.tx_buffer with
  | some buffer =>
    { s with tx_buffer := some { buffer with
        codes := alUpsert buffer.codes code_hash codeBytes } }
  | none => { s with code := alUpsert s.code code_hash codeBytes }

/-- `set_block_hash`. -/
def set_block_hash (s : RedbStateDB) (block_number block_hash : Nat) :
    RedbStateDB :=
  match s.tx_buffer with
  | some buffer =>
    { s with tx_buffer := some { buffer with
        block_hashes := alUpsert buffer.block_hashes block_number block_hash } }
  | none =>
    { s with block_hashes := alUpsert s.block_hashes block_number block_hash }

/-- `begin_transaction`: fails if one is active; installs an empty buffer
and clears the changed-accounts list. -/
def begin_transaction (s : RedbStateDB) : Except DbError RedbStateDB :=
  match s.tx_buffer with
  | some _ => .error (.Transaction "Transaction already started")
  | none =>
    .ok { s with tx_buffer := some TransactionBuffer.new, changed_accounts := [] }

/-- `commit_transaction`: drains the buffer into the persistent tables
(account upserts, account deletions, storage, code, block hashes); the
changed-accounts list is left untouched. -/
def commit_transaction (s : RedbStateDB) : Except DbError RedbStateDB :=
  match s.tx_buffer with
  | none => .error (.Transaction "No active transaction")
  | some buffer =>
    let accounts := buffer.accounts.foldl (fun t kv => alUpsert t kv.1 kv.2)
      s.accounts
    let accounts := buffer.deleted_accounts.foldl (fun t a => alRemove t a)
      accounts
    let storage := buffer.storage.foldl (fun t kv => alUpsert t kv.1 kv.2)
      s.storage
    let code := buffer.codes.foldl (fun t kv => alUpsert t kv.1 kv.2) s.code
    let block_hashes := buffer.block_hashes.foldl
      (fun t kv => alUpsert t kv.1 kv.2) s.block_hashes
    .ok { s with accounts := accounts, storage := storage, code := code,
                 block_hashes := block_hashes, tx_buffer := none }

/-- `rollback_transaction`: discard the buffer and clear the changed list
(always succeeds in the source, so modelled as total). -/
def rollback_transaction (s : RedbStateDB) : RedbStateDB :=
  { s with tx_buffer := none, changed_accounts := [] }

/-- `get_changed_accounts`. -/
def get_changed_accounts (s : RedbStateDB) : List Nat :=
  s.changed_accounts

/-- `save_block`: writes the serialized block into the `blocks` table in its
own write transaction, independent of the buffer. -/
def save_block (s : RedbStateDB) (number : Nat) (blockBytes : List Nat) :
    RedbStateDB :=
  { s with blocks := alUpsert s.blocks number blockBytes }

end RedbStateDB

/-- One buffered-mode write operation of the `StateDatabase` interface. -/
inductive StoreOp
  | setAccount (address : Nat) (account : Account)
  | deleteAccount (address : Nat)
  | setStorage (address key value : Nat)
  | setCode (code_hash : Nat) (codeBytes : List Nat)
  | setBlockHash (block_number block_hash : Nat)
deriving DecidableEq, Repr

/-- Apply one write operation to the store. -/
def applyOp (s : RedbStateDB) : StoreOp → RedbStateDB
  | .setAccount a acc => s.set_account a acc
  | .deleteAccount a => s.delete_account a
  | .setStorage a k v => s.set_storage a k v
  | .setCode h c => s.set_code h c
  | .setBlockHash n h => s.set_block_hash n h

/-- Apply a sequence of write operations left to right. -/
def applyOps (s : RedbStateDB) (ops : List StoreOp) : RedbStateDB :=
  ops.foldl applyOp s

/-- The tuple of persistent tables, for stating bytewise-identical claims. -/
def tablesOf (s : RedbStateDB) :
    List (Nat × Account) × List ((Nat × Nat) × Nat) × List (Nat × List Nat) ×
      List (Nat × Nat) × List (Nat × List Nat) :=
  (s.accounts, s.storage, s.code, s.block_hashes, s.blocks)

/-! ## Trie root calculators (`trie/builder.rs`, `trie/storage_root.rs`,
`trie/state_root.rs`) -/

/-- `trie::TrieError`. -/
inductive TrieError
  | Database (msg : String)
  | InvalidProof
  | NodeNotFound (msg : String)
  | RlpEncoding (msg : String)
  | Other (msg : String)
deriving DecidableEq, Repr

/-- `builder::hash_key`: keccak256 of the raw key bytes. -/
def hash_key (key : List Nat) : Nat := keccak256 key

/-- `builder::rlp_encode_account`:
`RLP((nonce, balance, storage_root, code_hash))`; `u64` and `U256` encode as
minimal big-endian integers, `B256` as a 32-byte string. -/
def rlp_encode_account (nonce balance storage_root code_hash : Nat) :
    List Nat :=
  rlpList [rlpNat nonce, rlpNat balance,
           rlpBytes (natToBytes32 storage_root),
           rlpBytes (natToBytes32 code_hash)]

/-- `builder::rlp_encode_storage_value`: `RLP(value)` for a `U256`. -/
def rlp_encode_storage_value (value : Nat) : List Nat := rlpNat value

/-- Core of `StorageRootCalculator::calculate` as a function of the slot
list returned by `get_all_storage`: empty list short-circuits to the empty
root; otherwise zero-valued slots are filtered out, keys are hashed over
their 32-byte big-endian form, the pairs are sorted by hashed key and fed to
the trie builder with RLP-encoded values. -/
def storageRootOfSlots (slots : List StorageSlot) : Nat :=
  if slots.isEmpty then EMPTY_ROOT_HASH
  else
    let sorted := sortByKey ((slots.filter (fun s => s.value ≠ 0)).map
      fun s => (hash_key (natToBytes32 s.key), s.value))
    mptRootFromSorted (sorted.map fun kv => (kv.1, rlp_encode_storage_value kv.2))

/-- `StorageRootCalculator::calculate` for an address against the store. -/
def StorageRootCalculator.calculate (s : RedbStateDB) (address : Nat) : Nat :=
  storageRootOfSlots (s.get_all_storage address)

/-- One row produced by `StateRootCalculator::process_account`. -/
structure AccountRow where
  hashedAddr : Nat
  nonce : Nat
  balance : Nat
  storageRoot : Nat
  codeHash : Nat
deriving DecidableEq, Repr

/-- `StateRootCalculator::process_account`: load the account (erroring with
a `Database` trie error when it is absent), compute its storage root, hash
the address. Store reads cannot fail in the model, so the only error site is
the missing account. -/
def process_account (s : RedbStateDB) (address : Nat) :
    Except TrieError AccountRow :=
  match s.get_account address with
  | none => .error (.Database "Account not found")
  | some account =>
    .ok ⟨hash_key (addrBytes address), account.nonce, account.balance,
         StorageRootCalculator.calculate s address, account.code_hash⟩

/-- Left-to-right collection of `Except` results
(`collect::<Result<Vec<_>, _>>`): the first error wins. -/
def mapExcept {α β ε : Type} (f : α → Except ε β) : List α → Except ε (List β)
  | [] => .ok []
  | a :: rest => do
    let b ← f a
    let bs ← mapExcept f rest
    .ok (b :: bs)

/-- `StateRootCalculator::calculate_incremental`: empty changed list yields
`EMPTY_STATE_ROOT`; otherwise process every changed account, sort the rows
by hashed address and build the state trie from the RLP-encoded accounts. -/
def calculate_incremental (s : RedbStateDB) : Except TrieError Nat :=
  let changed := s.get_changed_accounts
  if changed.isEmpty then .ok EMPTY_ROOT_HASH
  else do
    let rows ← mapExcept (process_account s) changed
    let sorted := sortByKey (rows.map fun r => (r.hashedAddr, r))
    .ok (mptRootFromSorted (sorted.map fun kr =>
      (kr.1, rlp_encode_account kr.2.nonce kr.2.balance kr.2.storageRoot
        kr.2.codeHash)))

/-! ## Executor errors and transaction pre-validation
(`executor/mod.rs`, `executor/transaction.rs`) -/

/-- `executor::ExecutorError`. `InsufficientFunds` carries the formatted
required/available amounts; they are modelled as the numbers themselves. -/
inductive ExecutorError
  | Database (msg : String)
  | Evm (msg : String)
  | Transaction (msg : String)
  | InvalidGas
  | NonceTooLow (expected got : Nat)
  | InsufficientFunds (required available : Nat)
  | GasLimitExceeded
  | InsufficientBalance
  | InvalidNonce
  | Other (msg : String)
deriving DecidableEq, Repr

/-- `ExecutorError::is_fatal`: only `Database` and `Evm` abort the block. -/
def ExecutorError.is_fatal : ExecutorError → Bool
  | .Database _ => true
  | .Evm _ => true
  | _ => false

/-- `ExecutorError::is_validation_error`. -/
def ExecutorError.is_validation_error : ExecutorError → Bool
  | .InvalidGas => true
  | .NonceTooLow _ _ => true
  | .InsufficientFunds _ _ => true
  | _ => false

/-- `TransactionExecutor::calculate_required_balance` over the already
parsed numeric fields of the transaction: `gas_limit * gas_price + value`
with `gas_price` defaulting to 1 Gwei, using checked `U256` arithmetic. -/
def calculate_required_balance (gas_limit : Nat) (gas_price : Option Nat)
    (value : Nat) : Except ExecutorError Nat :=
  let gp := gas_price.getD 1000000000
  if gas_limit * gp ≥ 2 ^ 256 then .error (.Transaction "Gas cost overflow")
  else if gas_limit * gp + value ≥ 2 ^ 256 then
    .error (.Transaction "Total cost overflow")
  else .ok (gas_limit * gp + value)

/-- `TransactionExecutor::validate_transaction` over the parsed numeric
fields of the transaction and the sender account read from the store:
gas-limit check, nonce check, then balance check. -/
def validate_transaction (account : Option Account) (gas_limit nonce : Nat)
    (gas_price : Option Nat) (value : Nat) : Except ExecutorError Unit :=
  if gas_limit = 0 then .error .InvalidGas
  else
    let nonceCheck : Except ExecutorError Unit :=
      match account with
      | some acc =>
        if nonce < acc.nonce then .error (.NonceTooLow acc.nonce nonce)
        else .ok ()
      | none => .ok ()
    match nonceCheck with
    | .error e => .error e
    | .ok () => do
      let required ← calculate_required_balance gas_limit gas_price value
      let available := (account.map Account.balance).getD 0
      if available < required then
        .error (.InsufficientFunds required available)
      else .ok ()

/-! ## Block executor (`executor/block_executor.rs`) -/

/-- State-changing store calls observable during `execute_block`
(`save_block` carries the block number it would persist). -/
inductive DbEvent
  | begin
  | commit
  | rollback
  | saveBlock (number : Nat)
deriving DecidableEq, Repr

/-- Outcome of processing one input transaction, supplied as an oracle for
the external parts (`validate_transaction` reads plus the revm interpreter):
either pre-validation fails, or `TransactionExecutor::execute` returns a
result with a success flag and gas usage, or it returns an error. -/
inductive TxStep
  | invalid (e : ExecutorError)
  | exec (success : Bool) (gas_used : Nat)
  | execFail (e : ExecutorError)
deriving DecidableEq, Repr

/-- Counters of `executor::BlockExecutionResult`. -/
structure BlockExecutionResult where
  total_gas_used : Nat
  successful_txs : Nat
  failed_txs : Nat
deriving DecidableEq, Repr

/-- The per-transaction loop of `BlockExecutor::execute_block`: skip
validation failures, accumulate gas and counters on ordinary execution, and
on an execution error either roll back and surface it (fatal) or count a
failed transaction and continue; after the loop, commit. -/
def runTxs : List TxStep → Nat → Nat → Nat →
    List DbEvent × Except ExecutorError BlockExecutionResult
  | [], gas, succ, failed => ([.commit], .ok ⟨gas, succ, failed⟩)
  | step :: rest, gas, succ, failed =>
    match step with
    | .invalid _ => runTxs rest gas succ (failed + 1)
    | .exec true g => runTxs rest (gas + g) (succ + 1) failed
    | .exec false g => runTxs rest (gas + g) succ (failed + 1)
    | .execFail e =>
      if e.is_fatal then ([.rollback], .error e)
      else runTxs rest gas succ (failed + 1)

/-- `BlockExecutor::execute_block`: begin a store transaction, run the
per-transaction loop, commit. The store-level effects are reported as the
event trace. -/
def execute_block (steps : List TxStep) :
    List DbEvent × Except ExecutorError BlockExecutionResult :=
  let r := runTxs steps 0 0 0
  (DbEvent.begin :: r.1, r.2)

/-! ## Transaction RLP encoding (`schema/block.rs`) -/

/-- `schema::Transaction`: the raw string fields (modelled as their UTF-8
bytes) plus the optional metadata fields. `from` is a Lean keyword, hence
the underscore. -/
structure Transaction where
  from_ : List Nat
  to_ : Option (List Nat)
  value : List Nat
  data : List Nat
  gas : List Nat
  nonce : List Nat
  hash : Option (List Nat)
  gas_price : Option (List Nat)
  chain_id : Option Nat
deriving DecidableEq, Repr

namespace Transaction

/-- Sum of the RLP-encoded lengths of the six encoded fields
(the `payload_length` computed inside `<Transaction as Encodable>::length`). -/
def payloadLength (tx : Transaction) : Nat :=
  (rlpBytes tx.from_).length +
    (rlpBytes (tx.to_.getD [])).length +
    (rlpBytes tx.value).length +
    (rlpBytes tx.data).length +
    (rlpBytes tx.gas).length +
    (rlpBytes tx.nonce).length

/-- `<Transaction as Encodable>::length`. -/
def rlpLength (tx : Transaction) : Nat :=
  tx.payloadLength + lengthOfLength tx.payloadLength

/-- `<Transaction as Encodable>::encode`: a list header computed from
`length() - 1` followed by the string fields in declaration order
(`from`, `to` or the empty string, `value`, `data`, `gas`, `nonce`). -/
def encode (tx : Transaction) : List Nat :=
  rlpListHeader (tx.rlpLength - 1) ++
    rlpBytes tx.from_ ++
    rlpBytes (tx.to_.getD []) ++
    rlpBytes tx.value ++
    rlpBytes tx.data ++
    rlpBytes tx.gas ++
    rlpBytes tx.nonce

end Transaction

/-- The transaction leaf encoding described by the specification:
the legacy list `RLP([nonce, gas_price, gas_limit, to, value, data])` over
the parsed numeric fields, with an empty string in the `to` position for
contract creation. Stated from the spec's words for comparison with
`Transaction.encode`. -/
def specLegacyTxRlp (nonce gas_price gas_limit : Nat) (toStr : Option (List Nat))
    (value : Nat) (data : List Nat) : List Nat :=
  rlpList [rlpNat nonce, rlpNat gas_price, rlpNat gas_limit,
           rlpBytes (toStr.getD []), rlpNat value, rlpBytes data]

/-! ## Transactions/receipts Merkle root (`utils/merkle.rs`) -/

/-- `utils::calculate_merkle_root` generic over the item RLP encoding
(`T: Encodable` in the source): empty list returns `EMPTY_ROOT_HASH`;
otherwise each position `i` yields the leaf `(keccak256(RLP(i)), RLP(item))`,
the entries are sorted by hashed key and inserted into the trie builder in
that order. -/
def calculate_merkle_root {α : Type} (enc : α → List Nat) (items : List α) :
    Nat :=
  if items.isEmpty then EMPTY_ROOT_HASH
  else
    let entries := items.enum.map fun p => (keccak256 (rlpNat p.1), enc p.2)
    mptRootFromSorted (sortByKey entries)

/-! ## Helper lemmas -/

set_option maxRecDepth 100000 in
set_option maxHeartbeats 4000000 in
/-- The hard-coded empty-root byte constant is `keccak256(RLP(""))`
(`RLP("") = 0x80`), checked by evaluating the Keccak permutation. -/
theorem keccak_rlp_empty_eval : keccak256 (rlpBytes []) = EMPTY_ROOT_HASH := by
  decide

theorem sortByKey_perm {β : Type} (l : List (Nat × β)) : (sortByKey l).Perm l :=
  List.perm_insertionSort _ l

theorem sortByKey_pairwise {β : Type} (l : List (Nat × β)) :
    List.Pairwise (fun a b => a.1 ≤ b.1) (sortByKey l) := by
  haveI : IsTotal (Nat × β) (fun a b => a.1 ≤ b.1) :=
    ⟨fun a b => Nat.le_total a.1 b.1⟩
  haveI : IsTrans (Nat × β) (fun a b => a.1 ≤ b.1) :=
    ⟨fun _ _ _ => Nat.le_trans⟩
  exact List.sorted_insertionSort _ l

/-- Two permuted pair lists with duplicate-free keys sort to the same list. -/
theorem sortByKey_eq_of_perm {β : Type} {l₁ l₂ : List (Nat × β)}
    (hp : l₁.Perm l₂) (hnd : (l₁.map Prod.fst).Nodup) :
    sortByKey l₁ = sortByKey l₂ := by
  haveI : IsAntisymm (Nat × β) (fun a b => a.1 < b.1) :=
    ⟨fun a b h1 h2 => absurd (Nat.lt_trans h1 h2) (Nat.lt_irrefl _)⟩
  have hperm : (sortByKey l₁).Perm (sortByKey l₂) :=
    ((sortByKey_perm l₁).trans hp).trans (sortByKey_perm l₂).symm
  have strict : ∀ (l : List (Nat × β)), (l.map Prod.fst).Nodup →
      List.Pairwise (fun a b : Nat × β => a.1 < b.1) (sortByKey l) := by
    intro l hl
    have hnds : ((sortByKey l).map Prod.fst).Nodup :=
      (((sortByKey_perm l).map Prod.fst).nodup_iff).mpr hl
    have hne : List.Pairwise (fun a b : Nat × β => a.1 ≠ b.1) (sortByKey l) :=
      List.pairwise_map.mp hnds
    exact ((sortByKey_pairwise l).and hne).imp fun h =>
      Nat.lt_of_le_of_ne h.1 h.2
  exact List.eq_of_perm_of_sorted hperm (strict l₁ hnd)
    (strict l₂ ((hp.map Prod.fst).nodup_iff.mp hnd))

/-- A fresh store with an open (empty) transaction buffer: the state reached
by `begin_transaction` on `RedbStateDB.new`. -/
def freshOpen : RedbStateDB := ⟨[], [], [], [], [], some TransactionBuffer.new, []⟩

/-- A store whose changed-accounts list names address 1 although no account
record exists for it: reached by begin, `delete_account(1)`, commit. -/
def orphanChangedState : RedbStateDB := ⟨[], [], [], [], [], none, [1]⟩

/-! ## C2: does a successful commit clear the changed-accounts list? -/

/-- **C2 counterexample.** From a fresh store: begin a transaction, write one
account, commit successfully — `get_changed_accounts` then returns `[1]`,
not the empty list the claim asserts. -/
theorem c2_commit_changed_counterexample :
    (RedbStateDB.new.begin_transaction.map fun s1 =>
      ((applyOp s1 (.setAccount 1 ⟨0, 1000, EMPTY_ROOT_HASH, EMPTY_CODE_HASH⟩)).commit_transaction.map
        RedbStateDB.get_changed_accounts)) = .ok (.ok [1]) ∧
    ¬([1] : List Nat) = [] := by
  exact ⟨rfl, by simp⟩

/-- **C2 (amended).** A successful `commit_transaction` leaves the
changed-accounts list exactly as it was — it is not cleared; only
`begin_transaction` and `rollback_transaction` clear it. -/
theorem commit_preserves_changed_accounts (s s' : RedbStateDB)
    (h : s.commit_transaction = .ok s') :
    s'.get_changed_accounts = s.get_changed_accounts := by
  unfold RedbStateDB.commit_transaction at h
  cases hb : s.tx_buffer with
  | none => rw [hb] at h; cases h
  | some buffer =>
    rw [hb] at h
    cases h
    rfl

/-- Witness for C2 (amended): committing an open empty transaction on a
store whose changed list is `[5]` leaves `get_changed_accounts` at `[5]`. -/
theorem commit_preserves_changed_accounts_witness :
    (⟨[], [], [], [], [], none, [5]⟩ : RedbStateDB).get_changed_accounts =
      (⟨[], [], [], [], [], some TransactionBuffer.new, [5]⟩ :
        RedbStateDB).get_changed_accounts :=
  commit_preserves_changed_accounts
    ⟨[], [], [], [], [], some TransactionBuffer.new, [5]⟩
    ⟨[], [], [], [], [], none, [5]⟩ rfl

/-! ## C3: rollback leaves every persistent table untouched -/

theorem applyOp_buffered (s : RedbStateDB) (op : StoreOp)
    (h : s.tx_buffer.isSome) :
    tablesOf (applyOp s op) = tablesOf s ∧ (applyOp s op).tx_buffer.isSome := by
  obtain ⟨b, hb⟩ := Option.isSome_iff_exists.mp h
  cases op with
  | setAccount a acc =>
    by_cases hmem : a ∈ s.changed_accounts <;>
      simp [applyOp, RedbStateDB.set_account,
        RedbStateDB.track_changed_account, hmem, hb, tablesOf]
  | deleteAccount a =>
    by_cases hmem : a ∈ s.changed_accounts <;>
      simp [applyOp, RedbStateDB.delete_account,
        RedbStateDB.track_changed_account, hmem, hb, tablesOf]
  | setStorage a k v =>
    by_cases hmem : a ∈ s.changed_accounts <;>
      simp [applyOp, RedbStateDB.set_storage,
        RedbStateDB.track_changed_account, hmem, hb, tablesOf]
  | setCode ch c =>
    simp [applyOp, RedbStateDB.set_code, hb, tablesOf]
  | setBlockHash n bh =>
    simp [applyOp, RedbStateDB.set_block_hash, hb, tablesOf]

theorem applyOps_buffered (s : RedbStateDB) (ops : List StoreOp)
    (h : s.tx_buffer.isSome) :
    tablesOf (applyOps s ops) = tablesOf s ∧
      (applyOps s ops).tx_buffer.isSome := by
  induction ops generalizing s with
  | nil => exact ⟨rfl, h⟩
  | cons op rest ih =>
    have h1 := applyOp_buffered s op h
    have h2 := ih (applyOp s op) h1.2
    exact ⟨h2.1.trans h1.1, h2.2⟩

/-- **C3.** Any sequence of `set_account`, `delete_account`, `set_storage`,
`set_code`, `set_block_hash` performed between `begin_transaction` and
`rollback_transaction` leaves every persistent table (accounts, storage,
code, block hashes, blocks) identical to its state before the begin: all
buffered writes have no persistent effect. -/
theorem rollback_restores_tables (s s1 : RedbStateDB) (ops : List StoreOp)
    (h : s.begin_transaction = .ok s1) :
    tablesOf ((applyOps s1 ops).rollback_transaction) = tablesOf s := by
  unfold RedbStateDB.begin_transaction at h
  cases hb : s.tx_buffer with
  | some b => rw [hb] at h; cases h
  | none =>
    rw [hb] at h
    cases h
    have h2 := applyOps_buffered
      { s with tx_buffer := some TransactionBuffer.new, changed_accounts := [] }
      ops (by simp)
    simpa [RedbStateDB.rollback_transaction, tablesOf] using h2.1

/-- Witness for C3: a concrete five-operation transaction on a fresh store,
rolled back, leaves all tables equal to the fresh store's. -/
theorem rollback_restores_tables_witness :
    tablesOf ((applyOps freshOpen
      [.setAccount 1 ⟨0, 7, 0, 0⟩, .setStorage 1 2 3, .deleteAccount 1,
       .setCode 9 [1, 2], .setBlockHash 4 5]).rollback_transaction) =
      tablesOf RedbStateDB.new :=
  rollback_restores_tables RedbStateDB.new freshOpen _ rfl

/-! ## C1: what `execute_block` does after the per-transaction loop -/

theorem runTxs_trace (steps : List TxStep) (gas succ failed : Nat) :
    (runTxs steps gas succ failed).1 = [.commit] ∨
      (runTxs steps gas succ failed).1 = [.rollback] := by
  induction steps generalizing gas succ failed with
  | nil => exact Or.inl rfl
  | cons step rest ih =>
    cases step with
    | invalid e => exact ih ..
    | exec success g => cases success <;> exact ih ..
    | execFail e =>
      by_cases hf : e.is_fatal <;> simp only [runTxs, hf]
      · exact Or.inr rfl
      · simpa using ih ..

/-- **C1 counterexample.** On the empty block, the store-event trace of
`execute_block` is exactly `[begin, commit]`: no `save_block` call happens
before (or after) `commit_transaction`, contradicting the claimed order
(... save_block ... and only then commit). -/
theorem c1_no_save_block_counterexample :
    (execute_block []).1 = [.begin, .commit] ∧
    ¬ ∃ n, DbEvent.saveBlock n ∈ (execute_block []).1 := by
  refine ⟨rfl, ?_⟩
  rintro ⟨n, hn⟩
  simp [execute_block, runTxs] at hn

/-- **C1 (amended).** `execute_block` begins a store transaction, runs the
per-transaction loop and then either commits directly (no fatal error) or
rolls back (fatal error): it performs no `save_block` call and no root
computation; transactions-root, state-root, receipts-root, header filling
and `save_block` are done by the caller after `execute_block` returns. -/
theorem execute_block_commits_without_sealing (steps : List TxStep) :
    ((execute_block steps).1 = [.begin, .commit] ∨
      (execute_block steps).1 = [.begin, .rollback]) ∧
    ∀ n, DbEvent.saveBlock n ∉ (execute_block steps).1 := by
  rcases runTxs_trace steps 0 0 0 with h | h
  · exact ⟨Or.inl (by simp [execute_block, h]),
      fun n => by simp [execute_block, h]⟩
  · exact ⟨Or.inr (by simp [execute_block, h]),
      fun n => by simp [execute_block, h]⟩

/-! ## C8: which execution errors are fatal to the block -/

/-- **C8 counterexample.** `Other` is not fatal: `is_fatal` returns `false`
on it, and a block whose only transaction fails with `Other` is *not*
aborted — `execute_block` rolls nothing back, counts one failed transaction
and returns `Ok`. -/
theorem c8_other_not_fatal_counterexample :
    (ExecutorError.Other "boom").is_fatal = false ∧
    execute_block [.execFail (.Other "boom")] =
      ([.begin, .commit], .ok ⟨0, 0, 1⟩) :=
  ⟨rfl, rfl⟩

/-- **C8 (amended).** Exactly the `Database` and `Evm` errors are fatal;
an `Other` error (like the remaining kinds) is non-fatal, so the block loop
records a failed transaction and continues instead of rolling back. -/
theorem is_fatal_only_database_evm :
    (∀ m, (ExecutorError.Other m).is_fatal = false) ∧
    (∀ e : ExecutorError, e.is_fatal = true ↔
      ((∃ m, e = .Database m) ∨ (∃ m, e = .Evm m))) ∧
    (∀ (e : ExecutorError) (rest : List TxStep) (gas succ failed : Nat),
      e.is_fatal = false →
      runTxs (.execFail e :: rest) gas succ failed =
        runTxs rest gas succ (failed + 1)) := by
  refine ⟨fun m => rfl, fun e => ?_, fun e rest gas succ failed hf => ?_⟩
  · cases e <;> simp [ExecutorError.is_fatal]
  · simp [runTxs, hf]

/-! ## C4: the three pre-validation checks, in order -/

/-- **C4 counterexample.** With `gas_limit = 2` and `gas_price = 2^255`
(both representable inputs) the checked `U256` multiplication overflows:
validation returns the `Transaction "Gas cost overflow"` error, not the
`InsufficientFunds` failure the claimed check (3) prescribes, although the
available balance (0) is below the mathematical required balance. -/
theorem c4_overflow_counterexample :
    validate_transaction (some ⟨0, 0, 0, 0⟩) 2 0 (some (2 ^ 255)) 0 =
      .error (.Transaction "Gas cost overflow") ∧
    (0 : Nat) < 2 * 2 ^ 255 + 0 ∧
    (Except.error (ExecutorError.Transaction "Gas cost overflow") ≠
      (Except.error (ExecutorError.InsufficientFunds (2 * 2 ^ 255 + 0) 0) :
        Except ExecutorError Unit)) := by
  refine ⟨rfl, by positivity, by simp⟩

/-- **C4 (amended).** Under the `U256` no-overflow bound on
`gas_limit * effective_gas_price + value` (outside it the checked
arithmetic yields a `Transaction` overflow error), `validate_transaction`
performs exactly the specified checks in order: (1) zero `gas_limit` fails
with `InvalidGas`; (2) an existing sender account with `tx.nonce <
account.nonce` fails with `NonceTooLow{expected = account.nonce, got =
tx.nonce}`, while an equal or higher nonce passes; (3) with required
balance `gas_limit * gas_price + value` (`gas_price` defaulting to `10^9`)
and available balance 0 for an absent account, a short balance fails with
`InsufficientFunds{required, available}`; otherwise validation succeeds. -/
theorem validate_transaction_checks (account : Option Account)
    (gas_limit nonce : Nat) (gas_price : Option Nat) (value : Nat)
    (hbound : gas_limit * gas_price.getD 1000000000 + value < 2 ^ 256) :
    (gas_limit = 0 →
      validate_transaction account gas_limit nonce gas_price value =
        .error .InvalidGas) ∧
    (∀ acc, account = some acc → gas_limit ≠ 0 → nonce < acc.nonce →
      validate_transaction account gas_limit nonce gas_price value =
        .error (.NonceTooLow acc.nonce nonce)) ∧
    (gas_limit ≠ 0 →
      (∀ acc, account = some acc → acc.nonce ≤ nonce) →
      ((account.map Account.balance).getD 0 <
          gas_limit * gas_price.getD 1000000000 + value →
        validate_transaction account gas_limit nonce gas_price value =
          .error (.InsufficientFunds
            (gas_limit * gas_price.getD 1000000000 + value)
            ((account.map Account.balance).getD 0))) ∧
      (gas_limit * gas_price.getD 1000000000 + value ≤
          (account.map Account.balance).getD 0 →
        validate_transaction account gas_limit nonce gas_price value =
          .ok ())) := by
  have hmul : ¬ gas_limit * gas_price.getD 1000000000 ≥ 2 ^ 256 := by omega
  have hadd : ¬ gas_limit * gas_price.getD 1000000000 + value ≥ 2 ^ 256 := by
    omega
  norm_num at hmul hadd
  have hmul' := Nat.not_le.mpr hmul
  have hadd' := Nat.not_le.mpr hadd
  refine ⟨fun h0 => by simp [validate_transaction, h0], ?_, ?_⟩
  · intro acc hacc hg hn
    simp [validate_transaction, hg, hacc, hn]
  · intro hg hnonce
    have hval : validate_transaction account gas_limit nonce gas_price value =
        if (account.map Account.balance).getD 0 <
            gas_limit * gas_price.getD 1000000000 + value then
          .error (.InsufficientFunds
            (gas_limit * gas_price.getD 1000000000 + value)
            ((account.map Account.balance).getD 0))
        else .ok () := by
      cases hacc : account with
      | none =>
        simp [validate_transaction, hg, hacc, calculate_required_balance,
          hmul', hadd', bind, Except.bind]
      | some acc =>
        have hnl := hnonce acc hacc
        simp [validate_transaction, hg, hacc, Nat.not_lt_of_le hnl,
          calculate_required_balance, hmul', hadd', bind, Except.bind]
    constructor
    · intro hlow
      rw [hval, if_pos hlow]
    · intro hok
      rw [hval, if_neg (Nat.not_lt_of_le hok)]

/-- Witness for C4 at the spec's nonce-too-low scenario: account nonce 5,
transaction nonce 2 yields `NonceTooLow{expected = 5, got = 2}`. -/
theorem validate_transaction_checks_witness :
    validate_transaction (some ⟨5, 10000000000000000000, EMPTY_ROOT_HASH,
        EMPTY_CODE_HASH⟩) 21000 2 (some 1000000000) 0 =
      .error (.NonceTooLow 5 2) :=
  (validate_transaction_checks
    (some ⟨5, 10000000000000000000, EMPTY_ROOT_HASH, EMPTY_CODE_HASH⟩)
    21000 2 (some 1000000000) 0 (by decide)).2.1
    ⟨5, 10000000000000000000, EMPTY_ROOT_HASH, EMPTY_CODE_HASH⟩
    rfl (by decide) (by decide)

/-! ## C10: a changed address with no account record fails the
incremental state root -/

theorem mapExcept_ok_mem {α β ε : Type} (f : α → Except ε β) (l : List α)
    (rows : List β) (h : mapExcept f l = .ok rows) {x : α} (hx : x ∈ l) :
    ∃ b, f x = .ok b := by
  induction l generalizing rows with
  | nil => cases hx
  | cons a rest ih =>
    unfold mapExcept at h
    cases hfa : f a with
    | error e => rw [hfa] at h; cases h
    | ok b =>
      rw [hfa] at h
      cases hrest : mapExcept f rest with
      | error e => rw [hrest] at h; cases h
      | ok bs =>
        rw [hrest] at h
        rcases List.mem_cons.mp hx with hx1 | hx2
        · exact hx1 ▸ ⟨b, hfa⟩
        · exact ih _ hrest hx2

/-- The traversal of `process_account` over the changed list produces either
a row list or the missing-account `Database` error. -/
theorem mapExcept_process_account_cases (s : RedbStateDB) (l : List Nat) :
    (∃ rows, mapExcept (process_account s) l = .ok rows) ∨
      mapExcept (process_account s) l =
        .error (.Database "Account not found") := by
  induction l with
  | nil => exact Or.inl ⟨[], rfl⟩
  | cons a rest ih =>
    cases hga : s.get_account a with
    | none =>
      have hfa : process_account s a = .error (.Database "Account not found") := by
        unfold process_account
        rw [hga]
      right
      unfold mapExcept
      rw [hfa]
      rfl
    | some acc =>
      have hfa : process_account s a =
          .ok ⟨hash_key (addrBytes a), acc.nonce, acc.balance,
            StorageRootCalculator.calculate s a, acc.code_hash⟩ := by
        unfold process_account
        rw [hga]
      rcases ih with ⟨rows, hrows⟩ | herr
      · refine Or.inl ⟨⟨hash_key (addrBytes a), acc.nonce, acc.balance,
          StorageRootCalculator.calculate s a, acc.code_hash⟩ :: rows, ?_⟩
        unfold mapExcept
        rw [hfa, hrows]
        rfl
      · right
        unfold mapExcept
        rw [hfa, herr]
        rfl

/-- **C10.** Whenever the changed-accounts list contains an address for
which `get_account` returns `None` (as after `delete_account`, which records
the address as changed and leaves no account record), the incremental
state-root calculation returns the `Database` trie error "Account not
found" instead of omitting the address from the trie. -/
theorem state_root_fails_on_missing_changed_account (s : RedbStateDB)
    (a : Nat) (hmem : a ∈ s.get_changed_accounts)
    (hnone : s.get_account a = none) :
    calculate_incremental s = .error (.Database "Account not found") := by
  have hne : s.get_changed_accounts.isEmpty = false := by
    cases hl : s.get_changed_accounts with
    | nil => rw [hl] at hmem; cases hmem
    | cons x xs => rfl
  have hfa : process_account s a = .error (.Database "Account not found") := by
    unfold process_account
    rw [hnone]
  have herr : mapExcept (process_account s) s.get_changed_accounts =
      .error (.Database "Account not found") := by
    rcases mapExcept_process_account_cases s s.get_changed_accounts with
      ⟨rows, hrows⟩ | h
    · obtain ⟨b, hb⟩ := mapExcept_ok_mem _ _ _ hrows hmem
      rw [hfa] at hb
      cases hb
    · exact h
  simp [calculate_incremental, hne, herr, bind, Except.bind]

/-- Witness for C10: a store whose changed list is `[1]` while address 1 has
no account record (reached by begin, `delete_account(1)`, commit); the
incremental state root errors. -/
theorem state_root_missing_account_witness :
    calculate_incremental orphanChangedState =
      .error (.Database "Account not found") :=
  state_root_fails_on_missing_changed_account orphanChangedState 1
    (by simp [RedbStateDB.get_changed_accounts, orphanChangedState]) rfl

/-! ## C5: state root before begin versus after rollback -/

/-- **C5 counterexample.** Reachable scenario: from a fresh store, begin,
`delete_account(1)`, commit — the changed list still holds address 1 with no
account record. Before the next `begin_transaction` the incremental state
root *errors* ("Account not found"); after begin plus rollback the changed
list is empty and it returns `EMPTY_STATE_ROOT`: the two results differ, so
the state root is not preserved across a begin/modify/rollback cycle from
every starting state. -/
theorem c5_state_root_rollback_counterexample :
    RedbStateDB.new.begin_transaction = .ok freshOpen ∧
    applyOp freshOpen (.deleteAccount 1) =
      ⟨[], [], [], [], [], some ⟨[], [], [], [], [1]⟩, [1]⟩ ∧
    (⟨[], [], [], [], [], some ⟨[], [], [], [], [1]⟩, [1]⟩ :
      RedbStateDB).commit_transaction = .ok orphanChangedState ∧
    calculate_incremental orphanChangedState =
      .error (.Database "Account not found") ∧
    orphanChangedState.begin_transaction = .ok freshOpen ∧
    freshOpen.rollback_transaction = ⟨[], [], [], [], [], none, []⟩ ∧
    calculate_incremental ⟨[], [], [], [], [], none, []⟩ =
      .ok EMPTY_ROOT_HASH ∧
    (Except.error (TrieError.Database "Account not found") ≠
      (Except.ok EMPTY_ROOT_HASH : Except TrieError Nat)) := by
  refine ⟨rfl, rfl, rfl, rfl, rfl, rfl, rfl, by simp⟩

/-- **C5 (amended).** Provided the changed-accounts list is empty before
`begin_transaction` (a fresh store, or directly after a rollback or a
previous root-and-clear cycle), the incremental state root after applying
any buffered changes and rolling them back equals the incremental state root
before the begin (both are the empty-state root, since `rollback` clears the
changed list). -/
theorem state_root_rollback_roundtrip (s s1 : RedbStateDB)
    (ops : List StoreOp) (hchanged : s.get_changed_accounts = [])
    (hbegin : s.begin_transaction = .ok s1) :
    calculate_incremental ((applyOps s1 ops).rollback_transaction) =
      calculate_incremental s := by
  have h1 : ((applyOps s1 ops).rollback_transaction).get_changed_accounts =
      [] := rfl
  have hL : calculate_incremental ((applyOps s1 ops).rollback_transaction) =
      .ok EMPTY_ROOT_HASH := by
    simp [calculate_incremental, h1]
  have hR : calculate_incremental s = .ok EMPTY_ROOT_HASH := by
    simp [calculate_incremental, hchanged]
  rw [hL, hR]

/-- Witness for C5 (amended): a concrete two-write transaction on a fresh
store, rolled back, leaves the incremental state root equal to the fresh
store's. -/
theorem state_root_rollback_roundtrip_witness :
    calculate_incremental ((applyOps freshOpen
      [.setAccount 1 ⟨0, 7, 0, 0⟩, .setStorage 1 2 3]).rollback_transaction) =
      calculate_incremental RedbStateDB.new :=
  state_root_rollback_roundtrip RedbStateDB.new freshOpen _ rfl rfl

/-! ## C6: the RLP form of the transaction leaf -/

/-- A concrete transaction with raw string fields (as UTF-8 bytes):
`from = "0x01"`, `to = None` (contract creation), `value = "0x0"`,
`data = "0x"`, `gas = "0x1"`, `nonce = "0x0"`, `gas_price = Some "0x1"`;
its parsed numeric fields are `nonce = 0`, `gas_price = 1`, `gas_limit = 1`,
`value = 0`, `data = []`. -/
def c6Tx : Transaction :=
  { from_ := [0x30, 0x78, 0x30, 0x31], to_ := none,
    value := [0x30, 0x78, 0x30], data := [0x30, 0x78],
    gas := [0x30, 0x78, 0x31], nonce := [0x30, 0x78, 0x30],
    hash := none, gas_price := some [0x30, 0x78, 0x31], chain_id := none }

/-- **C6 counterexample.** For the concrete creation transaction `c6Tx`, the
implemented `Encodable` output (an RLP list of the raw hex *strings*
`[from, to, value, data, gas, nonce]`) differs from the legacy
`RLP([nonce, gas_price, gas_limit, to, value, data])` over the parsed
numeric fields that the claim asserts. -/
theorem c6_transaction_rlp_counterexample :
    c6Tx.encode = [0xd5, 0x84, 0x30, 0x78, 0x30, 0x31, 0x80, 0x83, 0x30,
      0x78, 0x30, 0x82, 0x30, 0x78, 0x83, 0x30, 0x78, 0x31, 0x83, 0x30,
      0x78, 0x30] ∧
    specLegacyTxRlp 0 1 1 none 0 [] =
      [0xc6, 0x80, 0x01, 0x01, 0x80, 0x80, 0x80] ∧
    c6Tx.encode ≠ specLegacyTxRlp 0 1 1 none 0 [] := by
  refine ⟨rfl, rfl, by decide⟩

/-- **C6 (amended).** The trie leaf value for a transaction is the RLP list
of its *raw string fields* in the order `[from, to, value, data, gas,
nonce]` (hex strings encoded as byte strings), with an empty string in the
`to` position for contract creation — not the legacy numeric form (shown
here for payloads of at most 55 bytes, where the implementation's
`length() - 1` header arithmetic is coherent). -/
theorem transaction_encode_is_string_list (tx : Transaction)
    (h : tx.payloadLength ≤ 55) :
    tx.encode = rlpList [rlpBytes tx.from_, rlpBytes (tx.to_.getD []),
      rlpBytes tx.value, rlpBytes tx.data, rlpBytes tx.gas,
      rlpBytes tx.nonce] := by
  have hlen : tx.rlpLength - 1 = tx.payloadLength := by
    unfold Transaction.rlpLength lengthOfLength
    rw [if_pos h]
    omega
  have hflat : [rlpBytes tx.from_, rlpBytes (tx.to_.getD []),
      rlpBytes tx.value, rlpBytes tx.data, rlpBytes tx.gas,
      rlpBytes tx.nonce].flatten.length = tx.payloadLength := by
    simp [Transaction.payloadLength]
    omega
  unfold Transaction.encode rlpList
  rw [hlen, hflat]
  simp [List.append_assoc]

/-- Witness for C6 (amended) at the concrete transaction `c6Tx`. -/
theorem transaction_encode_is_string_list_witness :
    c6Tx.encode = rlpList [rlpBytes c6Tx.from_, rlpBytes (c6Tx.to_.getD []),
      rlpBytes c6Tx.value, rlpBytes c6Tx.data, rlpBytes c6Tx.gas,
      rlpBytes c6Tx.nonce] :=
  transaction_encode_is_string_list c6Tx (by decide)

/-! ## C7: leaf formation, ordering and the empty case of the
transactions/receipts root -/

/-- **C7.** `calculate_merkle_root` on the empty list returns the constant
`keccak256(RLP(""))`; on a non-empty list the leaves fed to the trie builder
are exactly `(keccak256(RLP(i)), RLP(item))` for each position `i`, inserted
as a permutation of those entries sorted by path ascending. -/
theorem merkle_root_leaves_sorted {α : Type} (enc : α → List Nat)
    (items : List α) :
    (items = [] → calculate_merkle_root enc items = keccak256 (rlpBytes [])) ∧
    (items ≠ [] →
      (sortByKey (items.enum.map fun p =>
          (keccak256 (rlpNat p.1), enc p.2))).Perm
        (items.enum.map fun p => (keccak256 (rlpNat p.1), enc p.2)) ∧
      List.Pairwise (fun a b => a.1 ≤ b.1)
        (sortByKey (items.enum.map fun p =>
          (keccak256 (rlpNat p.1), enc p.2))) ∧
      calculate_merkle_root enc items = mptRootFromSorted
        (sortByKey (items.enum.map fun p =>
          (keccak256 (rlpNat p.1), enc p.2)))) := by
  constructor
  · intro h
    subst h
    simp [calculate_merkle_root]
    exact keccak_rlp_empty_eval.symm
  · intro h
    refine ⟨sortByKey_perm _, sortByKey_pairwise _, ?_⟩
    simp [calculate_merkle_root, List.isEmpty_iff, h]

/-- Witness for C7: the empty transaction list yields `keccak256(RLP(""))`,
and for the one-element list `[42]` the root is built from the sorted
entry list. -/
theorem merkle_root_leaves_sorted_witness :
    calculate_merkle_root rlpNat ([] : List Nat) = keccak256 (rlpBytes []) ∧
    calculate_merkle_root rlpNat [42] = mptRootFromSorted
      (sortByKey ((List.enum [42]).map fun p =>
        (keccak256 (rlpNat p.1), rlpNat p.2))) :=
  ⟨(merkle_root_leaves_sorted rlpNat []).1 rfl,
   ((merkle_root_leaves_sorted rlpNat [42]).2 (by simp)).2.2⟩

/-! ## C9: the storage root as a function of the non-zero slot set -/

/-- **C9.** The storage root computed from a `get_all_storage` slot list is
unchanged under any permutation of the list (given collision-free hashed
keys for the non-zero slots, which distinct slot keys provide by
construction), and a zero-valued slot contributes nothing: prepending a slot
with value 0 leaves the root unchanged. -/
theorem storage_root_of_nonzero_slot_set :
    (∀ l₁ l₂ : List StorageSlot, l₁.Perm l₂ →
      ((l₁.filter fun s => s.value ≠ 0).map
        (fun s => hash_key (natToBytes32 s.key))).Nodup →
      storageRootOfSlots l₁ = storageRootOfSlots l₂) ∧
    (∀ (l : List StorageSlot) (z : StorageSlot), z.value = 0 →
      storageRootOfSlots (z :: l) = storageRootOfSlots l) := by
  constructor
  · intro l₁ l₂ hp hnd
    have hiso : l₁.isEmpty = l₂.isEmpty := by
      have hlen := hp.length_eq
      cases l₁ <;> cases l₂ <;> simp_all
    have hsort : sortByKey ((l₁.filter fun s => s.value ≠ 0).map
        fun s => (hash_key (natToBytes32 s.key), s.value)) =
      sortByKey ((l₂.filter fun s => s.value ≠ 0).map
        fun s => (hash_key (natToBytes32 s.key), s.value)) := by
      apply sortByKey_eq_of_perm ((hp.filter _).map _)
      simpa [List.map_map, Function.comp] using hnd
    unfold storageRootOfSlots
    rw [← hiso, hsort]
  · intro l z hz
    have hfil : (z :: l).filter (fun s => s.value ≠ 0) =
        l.filter (fun s => s.value ≠ 0) := by
      simp [List.filter_cons, hz]
    cases l with
    | nil =>
      unfold storageRootOfSlots
      rw [hfil]
      exact keccak_rlp_empty_eval
    | cons a rest =>
      unfold storageRootOfSlots
      rw [hfil]
      rfl

end BlockProducer
